import Mathlib

/-!
Shallow embedding of `src/metaopt/core/worker/transformer.py`.

The module defines an abstract bidirectional `Transformer` (with concrete
subclass `Identity` and the chaining subclass `Compose`), a
`TransformedDimension` wrapping one original dimension with a transformer,
a `TransformedSpace` wrapping a whole space, and the orchestrator
`build_required_space`.

Points are modelled as rationals (`Value`), array shapes as `List Nat`,
and the Python type-tag strings (`real`, `integer`, `categorical`,
`invariant`) as `String`, matching the source.  Python exceptions are
modelled with `Except PyError`.
-/

/-- Values flowing through transformers (Python scalars). -/
abbrev Value := Rat

/-- Array shapes (Python tuples of ints). -/
abbrev Shape := List Nat

/--
The `Transformer` class hierarchy of the source, as an inductive type:
* `identity` is the `Identity` subclass;
* `compose composition apply` is a `Compose` object with its two fields
  `self.composition` and `self.apply`;
* `mkT` stands for an arbitrary further concrete subclass of `Transformer`,
  carrying its `transform`, `reverse`, `target_type`, possibly overridden
  `infer_target_shape` and `repr_format` (the source defines no such
  subclass; the constructor lets theorems quantify over all of them).
-/
inductive Transformer where
  | identity : Transformer
  | compose (composition : Transformer) (app : Transformer) : Transformer
  | mkT (name : String) (fwd : Value → Value) (bwd : Value → Value)
      (ttype : String) (shapeF : Shape → Shape) (fmt : String → String) :
      Transformer

/-- `Transformer.transform`: `Identity.transform` returns the point;
`Compose.transform` applies `self.composition` first, then `self.apply`. -/
def Transformer.transform : Transformer → Value → Value
  | .identity, point => point
  | .compose composition app, point => app.transform (composition.transform point)
  | .mkT _ fwd _ _ _ _, point => fwd point

/-- `Transformer.reverse`: `Identity.reverse` returns the point;
`Compose.reverse` applies `self.apply.reverse` first, then
`self.composition.reverse`. -/
def Transformer.reverse : Transformer → Value → Value
  | .identity, transformed_point => transformed_point
  | .compose composition app, transformed_point =>
      composition.reverse (app.reverse transformed_point)
  | .mkT _ _ bwd _ _ _, transformed_point => bwd transformed_point

/-- `Transformer.infer_target_shape`: the base-class default returns the
shape unchanged (`Identity` inherits it); `Compose` threads the shape
through `self.composition` then `self.apply`. -/
def Transformer.infer_target_shape : Transformer → Shape → Shape
  | .identity, shape => shape
  | .compose composition app, shape =>
      app.infer_target_shape (composition.infer_target_shape shape)
  | .mkT _ _ _ _ shapeF _, shape => shapeF shape

/-- `Transformer.repr_format`: `Identity` overrides the base default and
returns the inner string unchanged; `Compose` wraps: outer
`self.apply.repr_format` applied to `self.composition.repr_format what`. -/
def Transformer.repr_format : Transformer → String → String
  | .identity, what => what
  | .compose composition app, what => app.repr_format (composition.repr_format what)
  | .mkT _ _ _ _ _ fmt, what => fmt what

/-- `target_type`: `Identity.target_type = invariant`; `Compose.target_type`
is `self.apply.target_type` unless that is `invariant`, in which case it is
`self.composition.target_type`. -/
def Transformer.target_type : Transformer → String
  | .identity => "invariant"
  | .compose composition app =>
      if app.target_type ≠ "invariant" then app.target_type
      else composition.target_type
  | .mkT _ _ _ ttype _ _ => ttype

/--
State-passing model of `Compose.__init__` on the REVERSED input list
(Python `list.pop()` removes the last element, i.e. the head of the
reversed list).  Returns the constructed object together with the reversed
remainder of the caller's list after construction:
* empty list: `pop` raises `IndexError`, caught, `self.apply = Identity()`,
  `self.composition` stays `Identity()`, list untouched;
* one element: it is popped into `self.apply`, the now-empty list is falsy
  so `self.composition` stays `Identity()`;
* more: last element popped into `self.apply`, then
  `Compose(transformers)` recurses on the same (already popped) list.
-/
def composeStRev : List Transformer → Transformer × List Transformer
  | [] => (.compose .identity .identity, [])
  | [a] => (.compose .identity a, [])
  | a :: b :: rest =>
      let (inner, rem) := composeStRev (b :: rest)
      (.compose inner a, rem)

/-- `Compose.__init__` with the caller's list threaded through: the result
is the constructed composite and the state of the caller's list after the
constructor returns. -/
def composeSt (transformers : List Transformer) : Transformer × List Transformer :=
  let (c, remRev) := composeStRev transformers.reverse
  (c, remRev.reverse)

/-- The composite object built by `Compose(transformers)`. -/
def Compose (transformers : List Transformer) : Transformer :=
  (composeSt transformers).1

example : Compose [] = .compose .identity .identity := rfl
example : Compose [.identity] = .compose .identity .identity := rfl
example (a b : Transformer) : Compose [a, b] = .compose (.compose .identity a) b := rfl
example (a b c : Transformer) :
    Compose [a, b, c] = .compose (.compose (.compose .identity a) b) c := rfl
/-- The recursion of `Compose.__init__` always drains the working list. -/
theorem composeStRev_snd : ∀ l : List Transformer, (composeStRev l).2 = []
  | [] => rfl
  | [_] => rfl
  | _ :: b :: rest => by
      simp only [composeStRev, composeStRev_snd (b :: rest)]

/-- After `Compose(transformers)` returns, the caller's list is empty. -/
theorem composeSt_snd (ts : List Transformer) : (composeSt ts).2 = [] := by
  simp only [composeSt, composeStRev_snd ts.reverse, List.reverse_nil]

/--
An original `Dimension`, the external collaborator consumed by this module
(`metaopt.algo.space.Dimension`, not under the verified source): it offers
a declared type tag, a name, a shape, seeded sampling, an interval and a
membership predicate, and a representation string.
-/
structure Dimension where
  name : String
  type : String
  shape : Shape
  sample : Nat → Nat → List Value
  interval : Value → Value × Value
  mem : Value → Bool
  rep : String

/-- `TransformedDimension.__init__`: holds the transformer and the original
dimension. -/
structure TransformedDimension where
  transformer : Transformer
  original_dimension : Dimension

namespace TransformedDimension

/-- `TransformedDimension.transform`: delegate to the transformer. -/
def transform (td : TransformedDimension) (point : Value) : Value :=
  td.transformer.transform point

/-- `TransformedDimension.reverse`: delegate to the transformer. -/
def reverse (td : TransformedDimension) (transformed_point : Value) : Value :=
  td.transformer.reverse transformed_point

/-- `TransformedDimension.sample`: sample from the original dimension and
forward transform each draw. -/
def sample (td : TransformedDimension) (n_samples : Nat) (seed : Nat) : List Value :=
  let samples := td.original_dimension.sample n_samples seed
  samples.map (fun s => td.transform s)

/-- `TransformedDimension.interval`: map both original interval bounds
through the forward transform. -/
def interval (td : TransformedDimension) (alpha : Value) : Value × Value :=
  let lowHigh := td.original_dimension.interval alpha
  (td.transform lowHigh.1, td.transform lowHigh.2)

/-- `TransformedDimension.__contains__`: reverse, then ask the original
dimension. -/
def mem (td : TransformedDimension) (point : Value) : Bool :=
  td.original_dimension.mem (td.reverse point)

/-- `TransformedDimension.__repr__`: the transformer's `repr_format`
applied to the original dimension's representation string. -/
def rep (td : TransformedDimension) : String :=
  td.transformer.repr_format td.original_dimension.rep

/-- `TransformedDimension.name`: passthrough. -/
def name (td : TransformedDimension) : String :=
  td.original_dimension.name

/-- `TransformedDimension.type`: the transformer's target type, unless
`invariant`, in which case the original dimension's type. -/
def type (td : TransformedDimension) : String :=
  let t := td.transformer.target_type
  if t ≠ "invariant" then t else td.original_dimension.type

/-- `TransformedDimension.shape`: the transformer's inferred target shape
of the original shape. -/
def shape (td : TransformedDimension) : Shape :=
  td.transformer.infer_target_shape td.original_dimension.shape

end TransformedDimension

/-- Python exceptions raised by this module: the `TypeError` of
`build_required_space` (text `Unsupported dimension type <type>`, naming
the offending type) and the `IndexError` of an out-of-range list index. -/
inductive PyError where
  | unsupportedDimensionType (offending : String)
  | indexError
deriving DecidableEq

/--
Modelled from the spec: the `Space` base class (`metaopt.algo.space.Space`,
an external collaborator not under the verified source) is an ordered
mapping from dimension name to dimension; `register` appends preserving
insertion order and `values()` iterates in that order.  `TransformedSpace`
is therefore an ordered list of `TransformedDimension`.
-/
abbrev TransformedSpace := List TransformedDimension

namespace TransformedSpace

/-- Modelled from the spec: `Space.register` appends, preserving insertion
order. -/
def register (s : TransformedSpace) (td : TransformedDimension) : TransformedSpace :=
  s ++ [td]

/-- Modelled from the spec: `Space.values()` iterates the registered
dimensions in insertion order. -/
def values (s : TransformedSpace) : List TransformedDimension := s

end TransformedSpace

/-- The list comprehension `[f(dim, point[i]) for i, dim in enumerate(dims)]`
common to `TransformedSpace.transform` and `TransformedSpace.reverse`:
walk the registered dimensions with the running index `i`, reading
`point[i]` (raising `IndexError` past the end of `point`) and applying `f`
to the dimension and the coordinate. -/
def spaceApply (f : TransformedDimension → Value → Value) :
    List TransformedDimension → Nat → List Value → Except PyError (List Value)
  | [], _, _ => Except.ok []
  | td :: rest, i, point =>
    match point.get? i with
    | none => Except.error PyError.indexError
    | some p =>

      match spaceApply f rest (i + 1) point with
      | Except.error e => Except.error e
      | Except.ok out => Except.ok (f td p :: out)

namespace TransformedSpace

/-- `TransformedSpace.transform`: for each registered dimension `dim` at
position `i`, apply `dim.transform` to `point[i]`, positionally. -/
def transform (s : TransformedSpace) (point : List Value) :
    Except PyError (List Value) :=
  spaceApply (fun td p => td.transform p) s.values 0 point

/-- `TransformedSpace.reverse`: coordinate-wise reverse, positionally. -/
def reverse (s : TransformedSpace) (transformed_point : List Value) :
    Except PyError (List Value) :=
  spaceApply (fun td p => td.reverse p) s.values 0 transformed_point

end TransformedSpace

/--
The inner requirement loop of `build_required_space` for one dimension:
walk the requirement list with the running `type_` and the accumulated
`transformers` list.  Per requirement: the `if/elif` over
`real`/`integer`/`categorical` holds only unimplemented `pass` branches
(`TODO Write classes and instantiate transformers accordingly`), an
unrecognized type raises the `TypeError`; then `transformers[-1]` is read
(raising `IndexError` on an empty list) and `type_` is updated to its
`target_type` unless that is `invariant`.
-/
def requirementLoop : List String → String → List Transformer →
    Except PyError (List Transformer)
  | [], _, transformers => Except.ok transformers
  | _ :: rest, type_, transformers =>
    if type_ = "real" ∨ type_ = "integer" ∨ type_ = "categorical" then
      match transformers.getLast? with
      | none => Except.error PyError.indexError
      | some last =>
          let last_type := last.target_type
          requirementLoop rest
            (if last_type ≠ "invariant" then last_type else type_) transformers
    else
      Except.error (PyError.unsupportedDimensionType type_)

/--
`build_required_space`: for each dimension of the original space (in
order), run the requirement loop starting from the dimension's declared
type and an empty transformer list, then register
`TransformedDimension(Compose(transformers), dim)` into the result space.
`requirements` is already list-normalized (the Python wraps a non-list
argument into a one-element list first).  The original space is its
ordered list of dimensions (`original_space.values()`).
-/
def buildLoop (requirements : List String) (space : TransformedSpace) :
    List Dimension → Except PyError TransformedSpace
  | [] => Except.ok space
  | dim :: rest =>
    match requirementLoop requirements dim.type [] with
    | Except.error e => Except.error e
    | Except.ok transformers =>
        buildLoop requirements
          (space.register (TransformedDimension.mk (Compose transformers) dim)) rest

/-- Entry point: start from a fresh `TransformedSpace()` and loop over the
dimensions. -/
def build_required_space (requirements : List String)
    (original_space : List Dimension) : Except PyError TransformedSpace :=
  buildLoop requirements [] original_space

/-- The first non-`invariant` target type in a list of transformers,
`invariant` if there is none.  Scanning the reversed chain with it gives
`Compose.target_type`. -/
def firstNonInvariant : List Transformer → String
  | [] => "invariant"
  | t :: rest =>
    if t.target_type ≠ "invariant" then t.target_type else firstNonInvariant rest

theorem composeStRev_transform : ∀ (l : List Transformer) (x : Value),
    ((composeStRev l).1).transform x = l.foldr (fun t p => t.transform p) x
  | [], _ => rfl
  | [_], _ => rfl
  | a :: b :: rest, x => by
      have ih := composeStRev_transform (b :: rest) x
      simp only [composeStRev, Transformer.transform, ih, List.foldr_cons]

theorem composeStRev_reverse : ∀ (l : List Transformer) (y : Value),
    ((composeStRev l).1).reverse y = l.foldl (fun p t => t.reverse p) y
  | [], _ => rfl
  | [_], _ => rfl
  | a :: b :: rest, y => by
      have ih := composeStRev_reverse (b :: rest) (a.reverse y)
      simp only [composeStRev, Transformer.reverse, ih, List.foldl_cons]

theorem composeStRev_shape : ∀ (l : List Transformer) (s : Shape),
    ((composeStRev l).1).infer_target_shape s =
      l.foldr (fun t sh => t.infer_target_shape sh) s
  | [], _ => rfl
  | [_], _ => rfl
  | a :: b :: rest, s => by
      have ih := composeStRev_shape (b :: rest) s
      simp only [composeStRev, Transformer.infer_target_shape, ih, List.foldr_cons]

theorem composeStRev_target : ∀ l : List Transformer,
    ((composeStRev l).1).target_type = firstNonInvariant l
  | [] => rfl
  | [a] => by
      simp only [composeStRev, Transformer.target_type, firstNonInvariant]
  | a :: b :: rest => by
      have ih := composeStRev_target (b :: rest)
      simp only [composeStRev, Transformer.target_type, ih, firstNonInvariant]

theorem Compose_transform (ts : List Transformer) (x : Value) :
    (Compose ts).transform x = ts.foldl (fun p t => t.transform p) x := by
  simp only [Compose, composeSt, composeStRev_transform, List.foldr_reverse]

theorem Compose_reverse (ts : List Transformer) (y : Value) :
    (Compose ts).reverse y = ts.reverse.foldl (fun p t => t.reverse p) y := by
  simp only [Compose, composeSt, composeStRev_reverse]

theorem Compose_target (ts : List Transformer) :
    (Compose ts).target_type = firstNonInvariant ts.reverse := by
  simp only [Compose, composeSt, composeStRev_target]

theorem composeStRev_roundtrip :
    ∀ l : List Transformer, (∀ t ∈ l, ∀ x : Value, t.reverse (t.transform x) = x) →
      ∀ x : Value, ((composeStRev l).1).reverse (((composeStRev l).1).transform x) = x
  | [], _, _ => rfl
  | [a], h, x => by
      simpa [composeStRev, Transformer.transform, Transformer.reverse] using
        h a (by simp) x
  | a :: b :: rest, h, x => by
      simp only [composeStRev, Transformer.transform, Transformer.reverse]
      rw [h a (by simp)]
      exact composeStRev_roundtrip (b :: rest)
        (fun t ht => h t (List.mem_cons_of_mem a ht)) x

/-- A sample concrete `Transformer` subclass: forward adds one, reverse
subtracts one, target type `real`. -/
def addOneT : Transformer :=
  Transformer.mkT "AddOne" (fun p => p + 1) (fun p => p - 1) "real"
    (fun s => s) (fun w => "AddOne(" ++ w ++ ")")

/-- A sample concrete `Transformer` subclass: forward doubles, reverse
halves, target type `integer`. -/
def doubleT : Transformer :=
  Transformer.mkT "Double" (fun p => 2 * p) (fun p => p / 2) "integer"
    (fun s => s) (fun w => "Double(" ++ w ++ ")")

/-- C1: a composite built from transformers that each satisfy
`reverse(transform(x)) == x` itself satisfies
`composite.reverse(composite.transform(x)) == x` at every point. -/
theorem c1_composite_roundtrip (ts : List Transformer)
    (h : ∀ t ∈ ts, ∀ x : Value, t.reverse (t.transform x) = x) (x : Value) :
    (Compose ts).reverse ((Compose ts).transform x) = x := by
  simp only [Compose, composeSt]
  exact composeStRev_roundtrip ts.reverse
    (fun t ht => h t (List.mem_reverse.mp ht)) x

theorem c1_composite_roundtrip_witness :
    (Compose [addOneT, doubleT]).reverse
      ((Compose [addOneT, doubleT]).transform 3) = 3 :=
  c1_composite_roundtrip [addOneT, doubleT]
    (by
      intro t ht x
      simp only [List.mem_cons, List.mem_singleton, List.not_mem_nil, or_false] at ht
      rcases ht with h1 | h2
      · subst h1
        simp [addOneT, Transformer.transform, Transformer.reverse]
      · subst h2
        simp only [doubleT, Transformer.transform, Transformer.reverse]
        rw [mul_div_cancel_left₀]
        norm_num)
    3

/-- C2: the composite of `[t1, ..., tn]` applies `t1, ..., tn` in list
order going forward, and `tn.reverse, ..., t1.reverse` in exact reverse
list order going backward. -/
theorem c2_composite_order (ts : List Transformer) (x y : Value) :
    (Compose ts).transform x = ts.foldl (fun p t => t.transform p) x ∧
    (Compose ts).reverse y = ts.reverse.foldl (fun p t => t.reverse p) y :=
  ⟨Compose_transform ts x, Compose_reverse ts y⟩

/-- C3: the empty composite behaves exactly as `Identity`: transform and
reverse return the argument, shape inference returns the shape, formatting
returns the inner string, and `target_type` is `invariant`. -/
theorem c3_empty_composite_identity (x y : Value) (s : Shape) (w : String) :
    (Compose []).transform x = Transformer.identity.transform x ∧
    (Compose []).transform x = x ∧
    (Compose []).reverse y = Transformer.identity.reverse y ∧
    (Compose []).reverse y = y ∧
    (Compose []).infer_target_shape s = Transformer.identity.infer_target_shape s ∧
    (Compose []).infer_target_shape s = s ∧
    (Compose []).repr_format w = Transformer.identity.repr_format w ∧
    (Compose []).repr_format w = w ∧
    (Compose []).target_type = "invariant" :=
  ⟨rfl, rfl, rfl, rfl, rfl, rfl, rfl, rfl, rfl⟩

/-- C4: the composite's `target_type` is the outer (last-in-list)
transformer's target type unless that is `invariant`, in which case it is
the inner composite's; in particular a chain ending in an `invariant`
transform preceded by an `integer` one resolves to `integer`. -/
theorem c4_target_type_propagation (ts : List Transformer) (a b : Transformer)
    (ha : a.target_type = "integer") (hb : b.target_type = "invariant") :
    (∀ (us : List Transformer) (t : Transformer),
      (Compose (us ++ [t])).target_type =
        if t.target_type = "invariant" then (Compose us).target_type
        else t.target_type) ∧
    (Compose (ts ++ [a, b])).target_type = "integer" := by
  constructor
  · intro us t
    rw [Compose_target, Compose_target, List.reverse_append]
    simp only [List.reverse_singleton, List.singleton_append, firstNonInvariant]
    by_cases hinv : t.target_type = "invariant" <;> simp [hinv]
  · rw [Compose_target, List.reverse_append]
    simp [firstNonInvariant, ha, hb]

theorem c4_target_type_propagation_witness :
    (Compose [doubleT, Transformer.identity]).target_type = "integer" :=
  (c4_target_type_propagation [] doubleT Transformer.identity rfl rfl).2

/-- A recognized-type (`real`) original dimension over `(0.0, 10.0)`. -/
def realDim : Dimension where
  name := "x"
  type := "real"
  shape := []
  sample := fun n seed => List.replicate n (seed : Value)
  interval := fun _ => (0, 10)
  mem := fun p => decide (0 < p) && decide (p < 10)
  rep := "Real(x)"

/-- An original dimension with the unrecognized type tag `unknown`. -/
def unknownDim : Dimension where
  name := "y"
  type := "unknown"
  shape := []
  sample := fun n seed => List.replicate n (seed : Value)
  interval := fun _ => (0, 1)
  mem := fun _ => true
  rep := "Unknown(y)"

/-- One requirement step starting from an empty transformer list: a
recognized type reaches `transformers[-1]` and fails with `IndexError`, an
unrecognized type raises the `TypeError` first. -/
theorem requirementLoop_cons_nil (r : String) (reqs : List String) (type_ : String) :
    requirementLoop (r :: reqs) type_ [] =
      if type_ = "real" ∨ type_ = "integer" ∨ type_ = "categorical" then
        Except.error PyError.indexError
      else Except.error (PyError.unsupportedDimensionType type_) := by
  simp only [requirementLoop, List.getLast?]

/-- C5 as stated is false: in a space whose first dimension has a
recognized type and whose second has the unrecognized type `unknown`,
`build_required_space` fails with `IndexError` (from the unimplemented
selection branches) rather than with the `TypeError` naming `unknown`. -/
theorem c5_counterexample_first_dim_wins :
    build_required_space ["real"] [realDim, unknownDim] =
      Except.error PyError.indexError ∧
    ∀ t : String, PyError.indexError ≠ PyError.unsupportedDimensionType t :=
  ⟨rfl, fun _ h => PyError.noConfusion h⟩

/-- C5 (amended): when the unsupported-type dimension comes first (no
recognized-type dimension is processed before it), `build_required_space`
with a non-empty requirement list raises the `TypeError` naming the
offending type, immediately and without retry. -/
theorem c5_unsupported_type_raises (d : Dimension) (dims : List Dimension)
    (r : String) (reqs : List String) (h1 : d.type ≠ "real")
    (h2 : d.type ≠ "integer") (h3 : d.type ≠ "categorical") :
    build_required_space (r :: reqs) (d :: dims) =
      Except.error (PyError.unsupportedDimensionType d.type) := by
  simp only [build_required_space, buildLoop, requirementLoop_cons_nil, h1, h2, h3,
    or_self, if_false, if_neg, or_false, false_or]

theorem c5_unsupported_type_raises_witness :
    build_required_space ["real"] [unknownDim] =
      Except.error (PyError.unsupportedDimensionType "unknown") :=
  c5_unsupported_type_raises unknownDim [] "real" []
    (by decide) (by decide) (by decide)

/-- C6: evaluating the code at the spec's end-to-end scenario: a single
`real` dimension over `(0.0, 10.0)` and requirements `[invariant]` does
not produce a transformed space; the call fails with `IndexError` because
the `real` branch of the selection `if/elif` is an unimplemented `pass`,
leaving the transformer list empty when `transformers[-1]` is read. -/
theorem c6_end_to_end_scenario_fails :
    build_required_space ["invariant"] [realDim] =
      Except.error PyError.indexError := rfl

/-- C7 as stated is false: at `[unknownDim, realDim]` with requirements
`[real]` — a space containing a recognized-type dimension and a non-empty
requirement list — the code raises the `TypeError` at `unknownDim` before
the recognized dimension is ever processed, so the failure is not the
`IndexError` at the first recognized-type dimension. -/
theorem c7_counterexample_type_error_first :
    build_required_space ["real"] [unknownDim, realDim] =
      Except.error (PyError.unsupportedDimensionType "unknown") ∧
    PyError.unsupportedDimensionType "unknown" ≠ PyError.indexError :=
  ⟨rfl, fun h => PyError.noConfusion h⟩

/-- C7 (amended): with a non-empty requirement list and a space containing
at least one recognized-type dimension, `build_required_space` never
returns a space; when the first dimension processed is of recognized type
the failure is the `IndexError` from reading the last element of the empty
transformer list on the first requirement (when an unsupported-typed
dimension precedes, the call fails even earlier with the `TypeError`). -/
theorem c7_never_returns_space_corrected (r : String) (reqs : List String)
    (dims : List Dimension)
    (h : ∃ d ∈ dims, d.type = "real" ∨ d.type = "integer" ∨ d.type = "categorical") :
    (∀ ts : TransformedSpace, build_required_space (r :: reqs) dims ≠ Except.ok ts) ∧
    (∀ (d : Dimension) (rest : List Dimension), dims = d :: rest →
      (d.type = "real" ∨ d.type = "integer" ∨ d.type = "categorical") →
      build_required_space (r :: reqs) dims = Except.error PyError.indexError) := by
  constructor
  · intro ts hok
    cases dims with
    | nil => simp at h
    | cons d rest =>
      rw [build_required_space, buildLoop, requirementLoop_cons_nil] at hok
      by_cases hd : d.type = "real" ∨ d.type = "integer" ∨ d.type = "categorical"
      · rw [if_pos hd] at hok
        exact Except.noConfusion hok
      · rw [if_neg hd] at hok
        exact Except.noConfusion hok
  · intro d rest heq hd
    subst heq
    rw [build_required_space, buildLoop, requirementLoop_cons_nil, if_pos hd]

theorem c7_never_returns_space_corrected_witness :
    build_required_space ["real"] [realDim] = Except.error PyError.indexError :=
  (c7_never_returns_space_corrected "real" [] [realDim]
    ⟨realDim, by simp, Or.inl rfl⟩).2 realDim [] rfl (Or.inl rfl)

/-- C8: a transformed dimension's seeded draw is exactly the element-wise
forward transform of the original dimension's seeded draw: the lists are
equal as a whole, the length is `n` whenever the original draw has length
`n`, and the `i`-th transformed sample is the transform of the `i`-th
original sample. -/
theorem c8_sample_then_transform (td : TransformedDimension) (n seed : Nat)
    (h : (td.original_dimension.sample n seed).length = n) :
    td.sample n seed =
      (td.original_dimension.sample n seed).map (fun p => td.transform p) ∧
    (td.sample n seed).length = n ∧
    ∀ i : Nat, (td.sample n seed).get? i =
      ((td.original_dimension.sample n seed).get? i).map (fun p => td.transform p) := by
  refine ⟨rfl, ?_, ?_⟩
  · simp only [TransformedDimension.sample, List.length_map, h]
  · intro i
    simp only [TransformedDimension.sample, List.get?_map]

/-- An original dimension whose seeded sampler is concrete: sample `i` of a
draw with seed `s` is `s + i`. -/
def natDim : Dimension where
  name := "z"
  type := "integer"
  shape := []
  sample := fun n seed => (List.range n).map (fun i => ((seed + i : Nat) : Value))
  interval := fun _ => (0, 100)
  mem := fun _ => true
  rep := "Integer(z)"

/-- A concrete transformed dimension: `natDim` wrapped with the `AddOne`
transformer. -/
def tdW : TransformedDimension := TransformedDimension.mk addOneT natDim

theorem c8_sample_then_transform_witness :
    (tdW.original_dimension.sample 2 5).length = 2 ∧
    tdW.sample 2 5 =
      (tdW.original_dimension.sample 2 5).map (fun p => tdW.transform p) ∧
    (tdW.sample 2 5).length = 2 ∧
    (tdW.sample 2 5).get? 1 =
      ((tdW.original_dimension.sample 2 5).get? 1).map (fun p => tdW.transform p) :=
  ⟨rfl, (c8_sample_then_transform tdW 2 5 rfl).1,
    (c8_sample_then_transform tdW 2 5 rfl).2.1,
    (c8_sample_then_transform tdW 2 5 rfl).2.2 1⟩

/-- Registering dimensions one by one appends in order. -/
theorem foldl_register (tds : List TransformedDimension) :
    ∀ acc : TransformedSpace,
      tds.foldl TransformedSpace.register acc = acc ++ tds := by
  induction tds with
  | nil => intro acc; simp [TransformedSpace.register]
  | cons td rest ih =>
      intro acc
      simp [List.foldl_cons, TransformedSpace.register, ih]

/-- When `point` has at least `k` + the number of dimensions coordinates,
the comprehension succeeds and pairs dimension `j` with coordinate
`k + j`. -/
theorem spaceApply_ok (f : TransformedDimension → Value → Value) :
    ∀ (tds : List TransformedDimension) (k : Nat) (point : List Value),
      tds.length + k ≤ point.length →
      spaceApply f tds k point = Except.ok (List.zipWith f tds (point.drop k))
  | [], _, _, _ => by simp [spaceApply]
  | td :: rest, k, point, h => by
      have hk : k < point.length := by
        have := h
        simp only [List.length_cons] at this
        omega
      have hget : point.get? k = some (point.get ⟨k, hk⟩) := List.get?_eq_get hk
      have ih := spaceApply_ok f rest (k + 1) point (by
        simp only [List.length_cons] at h
        omega)
      simp only [spaceApply, hget, ih]
      rw [List.drop_eq_get_cons hk]
      rfl

/-- The `i`-th element of a positional `zipWith`. -/
theorem get?_zipWith {α β γ : Type} (f : α → β → γ) :
    ∀ (l1 : List α) (l2 : List β) (i : Nat),
      (List.zipWith f l1 l2).get? i =
        (l1.get? i).bind fun a => (l2.get? i).map fun b => f a b
  | [], _, _ => by simp
  | _ :: _, [], _ => by simp
  | a :: l1, b :: l2, 0 => by simp
  | a :: l1, b :: l2, i + 1 => by
      simpa using get?_zipWith f l1 l2 i

/-- C9: a transformed space built by registering dimensions in order lists
them in exactly that order in `values()`, and for points of matching
length, `transform` (resp. `reverse`) succeeds and applies the `i`-th
registered dimension's transform (resp. reverse) to the `i`-th
coordinate, positionally. -/
theorem c9_positional_transform (tds : List TransformedDimension)
    (point tpoint : List Value) (hp : point.length = tds.length)
    (htp : tpoint.length = tds.length) :
    TransformedSpace.values (tds.foldl TransformedSpace.register []) = tds ∧
    (∃ out, TransformedSpace.transform (tds.foldl TransformedSpace.register [])
        point = Except.ok out ∧ out.length = tds.length ∧
      ∀ i : Nat, out.get? i =
        (tds.get? i).bind fun td => (point.get? i).map fun p => td.transform p) ∧
    (∃ rout, TransformedSpace.reverse (tds.foldl TransformedSpace.register [])
        tpoint = Except.ok rout ∧ rout.length = tds.length ∧
      ∀ i : Nat, rout.get? i =
        (tds.get? i).bind fun td => (tpoint.get? i).map fun p => td.reverse p) := by
  have hvals : TransformedSpace.values (tds.foldl TransformedSpace.register []) = tds := by
    rw [foldl_register tds []]
    rfl
  refine ⟨hvals, ⟨List.zipWith (fun td p => td.transform p) tds point, ?_, ?_, ?_⟩,
    ⟨List.zipWith (fun td p => td.reverse p) tds tpoint, ?_, ?_, ?_⟩⟩
  · rw [TransformedSpace.transform, hvals,
      spaceApply_ok (fun td p => td.transform p) tds 0 point (by omega)]
    rfl
  · rw [List.length_zipWith, hp, Nat.min_self]
  · intro i
    exact get?_zipWith (fun td p => td.transform p) tds point i
  · rw [TransformedSpace.reverse, hvals,
      spaceApply_ok (fun td p => td.reverse p) tds 0 tpoint (by omega)]
    rfl
  · rw [List.length_zipWith, htp, Nat.min_self]
  · intro i
    exact get?_zipWith (fun td p => td.reverse p) tds tpoint i

/-- A second concrete transformed dimension: `natDim` wrapped with the
`Double` transformer. -/
def tdW2 : TransformedDimension := TransformedDimension.mk doubleT natDim

theorem c9_positional_transform_witness :
    ([1, 2] : List Value).length = [tdW, tdW2].length ∧
    TransformedSpace.values
      ([tdW, tdW2].foldl TransformedSpace.register []) = [tdW, tdW2] :=
  ⟨rfl, (c9_positional_transform [tdW, tdW2] [1, 2] [3, 4] rfl rfl).1⟩

/-- C10 as stated is false: `Compose.__init__` consumes the caller's list
via `pop()`; after constructing a composite from the one-element list
`[Identity()]`, the caller's list is empty, not unchanged. -/
theorem c10_counterexample_list_consumed :
    (composeSt [Transformer.identity]).2 = [] ∧
    ([] : List Transformer) ≠ [Transformer.identity] :=
  ⟨rfl, fun h => List.noConfusion h⟩

/-- C10 (amended): constructing a composite empties the caller's sequence
(it is destructively consumed by `pop()`), while the composite's own chain
still applies the original contents in their original order and is fixed
after construction. -/
theorem c10_composite_consumes_input (ts : List Transformer) :
    (composeSt ts).2 = [] ∧
    ∀ x : Value, ((composeSt ts).1).transform x =
      ts.foldl (fun p t => t.transform p) x :=
  ⟨composeSt_snd ts, fun x => Compose_transform ts x⟩
